import Mathlib

/-!
# The DHT core of holochain-proto (`dht.go`)

A shallow embedding of `dht.go`: the content store, the metadata store, the
message dispatcher `DHTReceiver`, the sender `SendPut` with the node lookup
`FindNodeForHash`, and theorems about them.

Conventions of the embedding.

* A Go `error` is an `Option String`: `none` is `nil`, `some s` is
  `errors.New(s)`.
* A Go `map[string]V` is a function `String → Option V`; `none` is "key not in
  the map".  Assignment `m[k] = v` is `GoMap.set`.
* A Go slice is a `List`; the `nil` slice and the empty slice are both `[]`.
* A method that mutates its receiver returns the new receiver next to its Go
  results.
* The type `Hash` is declared outside `dht.go`.  It is a type parameter, and
  its `String()` method is the class `Stringer`.
* The transport `h.Send`, the private key of the agent and the derivation of a
  peer identity from it are declared outside `dht.go`.  They are the fields of
  the parameter `Collab`.
-/

set_option autoImplicit false

namespace HoloDHT

/-- Go error values: `none` is `nil`, `some s` is an error whose text is `s`. -/
abbrev GoError := Option String

/-- Byte slices (`[]byte`). -/
abbrev Bytes := List (Fin 256)

/-- Go maps keyed by strings. -/
abbrev GoMap (V : Type) := String → Option V

/-- The empty map, `make(map[string]V)`. -/
def GoMap.empty {V : Type} : GoMap V := fun _ => none

/-- Map assignment `m[k] = v`. -/
def GoMap.set {V : Type} (m : GoMap V) (k : String) (v : V) : GoMap V :=
  fun s => if s = k then some v else m s

/-- The method `String()` of a key type (Go's `fmt.Stringer`); `dht.go` uses
`key.String()` as the map key of both stores. -/
class Stringer (α : Type) where
  /-- The string encoding of a value. -/
  String : α → String

/-- Meta holds data that can be associated with a hash. -/
structure Meta (Hash : Type) where
  /-- The hash the entry links to. -/
  H : Hash
  /-- The type tag. -/
  T : String
  /-- The value. -/
  V : Bytes
deriving DecidableEq, Repr

/-- The dynamic value held by the `interface{}` body of a message: a `Hash`, or
`nil`, or a value of any other dynamic type (named by `goType`). -/
inductive Body (Hash : Type) where
  | hash (h : Hash)
  | nil
  | other (goType : String) (text : String)
deriving DecidableEq, Repr

/-- A protocol message: the two fields `Type` and `Body` that `dht.go` reads.
`MsgType` is an integer type. -/
structure Message (Hash : Type) where
  /-- The field `Type`. -/
  Typ : Int
  /-- The field `Body`. -/
  Body : Body Hash
deriving DecidableEq, Repr

/-- The message type constants used by `dht.go`, declared outside it.  The two
are the case labels of one Go `switch`, hence distinct. -/
structure MsgTypes where
  /-- The constant `PUT_REQUEST`. -/
  PUT_REQUEST : Int
  /-- The constant `GET_REQUEST`. -/
  GET_REQUEST : Int
  /-- Case labels of one switch differ. -/
  distinct : PUT_REQUEST ≠ GET_REQUEST

/-- Modelled from the spec: the request queue (`q.Queue` of the library
go-datastructures, not part of `dht.go`).  A FIFO whose `Put` appends at the
tail and fails when the queue is closed or at capacity (spec §4.4).
`capacity = none` is an unbounded queue. -/
structure Queue (Hash : Type) where
  /-- The queued items, head first. -/
  items : List (Message Hash)
  /-- Whether the queue has been closed. -/
  disposed : Bool
  /-- The bound on the number of items, if any. -/
  capacity : Option Nat

/-- The zero value of the queue type: empty, open, unbounded. -/
def Queue.zero {Hash : Type} : Queue Hash :=
  { items := [], disposed := false, capacity := none }

/-- Whether the queue holds as many items as its capacity allows. -/
def Queue.full {Hash : Type} (q : Queue Hash) : Bool :=
  match q.capacity with
  | none => false
  | some c => decide (c ≤ q.items.length)

/-- Modelled from the spec: `Queue.Put` (spec §4.4), which fails if the queue
is closed or at capacity and otherwise appends the item at the tail. -/
def Queue.Put {Hash : Type} (q : Queue Hash) (m : Message Hash) : GoError × Queue Hash :=
  if q.disposed then (some "queue: disposed", q)
  else if q.full then (some "queue: full", q)
  else (none, { q with items := q.items ++ [m] })

/-- DHT struct holds the data necessary to run the distributed hash table.
The back pointer `h` to the owning node is not a field here: the node is the
structure `Holochain` below, which owns the `DHT`. -/
structure DHT (Hash : Type) where
  /-- The store used to persist data this node is responsible for. -/
  store : GoMap Bytes
  /-- The store used to persist putMetas. -/
  metastore : GoMap (List (Meta Hash))
  /-- A queue for incoming puts. -/
  Queue : Queue Hash

/-- NewDHT creates a new DHT structure: two empty maps and a zero queue. -/
def NewDHT {Hash : Type} : DHT Hash :=
  { store := GoMap.empty, metastore := GoMap.empty, Queue := Queue.zero }

namespace DHT

variable {Hash : Type} [Stringer Hash]

/-- The method `put`: stores a value to the DHT store. -/
def put (dht : DHT Hash) (key : Hash) (value : Bytes) : GoError × DHT Hash :=
  (none, { dht with store := dht.store.set (Stringer.String key) value })

/-- The method `exists`: checks for the existence of the hash in the store. -/
def «exists» (dht : DHT Hash) (key : Hash) : GoError :=
  match dht.store (Stringer.String key) with
  | some _ => none
  | none => some ("No key: " ++ Stringer.String key)

/-- The method `get`: retrieves a value from the DHT store. -/
def get (dht : DHT Hash) (key : Hash) : Bytes × GoError :=
  match dht.exists key with
  | none => ((dht.store (Stringer.String key)).getD [], none)
  | some e => ([], some e)

/-- The method `putMeta`: associates a value with a stored hash. -/
def putMeta (dht : DHT Hash) (key : Hash) (metaKey : Hash) (metaType : String)
    (value : Bytes) : GoError × DHT Hash :=
  match dht.exists key with
  | none =>
    let m : Meta Hash := { H := metaKey, T := metaType, V := value }
    let ks := Stringer.String key
    match dht.metastore ks with
    | none => (none, { dht with metastore := dht.metastore.set ks [m] })
    | some v => (none, { dht with metastore := dht.metastore.set ks (v ++ [m]) })
  | some e => (some e, dht)

end DHT

/-- The function `filter`: the loop appends to `ret`, in order, each element
that passes `test`. -/
def filter {Hash : Type} (ss : List (Meta Hash)) (test : Meta Hash → Bool) :
    List (Meta Hash) :=
  ss.foldl (fun ret s => if test s then ret ++ [s] else ret) []

namespace DHT

variable {Hash : Type} [Stringer Hash]

/-- The method `getMeta`: retrieves values associated with hashes. -/
def getMeta (dht : DHT Hash) (key : Hash) (metaType : String) :
    List (Meta Hash) × GoError :=
  match dht.exists key with
  | none =>
    let ks := Stringer.String key
    match dht.metastore ks with
    | some v =>
      let results := filter v (fun m => decide (m.T = metaType))
      if results.length = 0 then (results, some ("No values for " ++ metaType))
      else (results, none)
    | none => ([], some ("No values for " ++ metaType))
  | some e => ([], some e)

end DHT

/-- The node context `*Holochain` as far as `DHTReceiver` reads it: the field
`dht`. -/
structure Holochain (Hash : Type) where
  /-- The DHT of the node. -/
  dht : DHT Hash

/-- The Go results `(response, err)` of `DHTReceiver`, next to the node after
the call.  The response is `nil` (`none`) or a string. -/
structure Dispatch (Hash : Type) where
  /-- The result `response`. -/
  response : Option String
  /-- The result `err`. -/
  err : GoError
  /-- The node after the call. -/
  h : Holochain Hash

/-- DHTReceiver handles messages on the dht protocol. -/
def DHTReceiver {Hash : Type} (c : MsgTypes) (h : Holochain Hash) (m : Message Hash) :
    Dispatch Hash :=
  if m.Typ = c.PUT_REQUEST then
    match m.Body with
    | Body.hash _ =>
      match h.dht.Queue.Put m with
      | (none, q) =>
        { response := some "queued", err := none, h := { h with dht := { h.dht with Queue := q } } }
      | (some e, q) =>
        { response := none, err := some e, h := { h with dht := { h.dht with Queue := q } } }
    | _ => { response := none, err := some "expected hash", h := h }
  else if m.Typ = c.GET_REQUEST then
    { response := none, err := none, h := h }
  else
    { response := none,
      err := some ("message type " ++ toString m.Typ ++ " not in holochain-dht protocol"),
      h := h }

/-- One call of the DHT interface of a node: the five store methods and the
dispatch of one inbound message. -/
inductive Op (Hash : Type) where
  | put (key : Hash) (value : Bytes)
  | putMeta (key : Hash) (metaKey : Hash) (metaType : String) (value : Bytes)
  | «exists» (key : Hash)
  | get (key : Hash)
  | getMeta (key : Hash) (metaType : String)
  | receive (m : Message Hash)

/-- The node after one call; the Go results of the call are dropped. -/
def Holochain.step {Hash : Type} [Stringer Hash] (c : MsgTypes) (h : Holochain Hash) :
    Op Hash → Holochain Hash
  | Op.put key value => { h with dht := (h.dht.put key value).2 }
  | Op.putMeta key metaKey metaType value =>
    { h with dht := (h.dht.putMeta key metaKey metaType value).2 }
  | Op.exists _ => h
  | Op.get _ => h
  | Op.getMeta _ _ => h
  | Op.receive m => (DHTReceiver c h m).h

/-- The node after a finite sequence of calls, made one after another. -/
def Holochain.run {Hash : Type} [Stringer Hash] (c : MsgTypes) (h : Holochain Hash)
    (ops : List (Op Hash)) : Holochain Hash :=
  ops.foldl (Holochain.step c) h

/-- The arguments of one `putMeta` call on a given key. -/
structure MetaCall (Hash : Type) where
  /-- The argument `metaKey`. -/
  metaKey : Hash
  /-- The argument `metaType`. -/
  metaType : String
  /-- The argument `value`. -/
  value : Bytes

/-- The Meta that `putMeta` builds from the arguments of a call. -/
def MetaCall.toMeta {Hash : Type} (c : MetaCall Hash) : Meta Hash :=
  { H := c.metaKey, T := c.metaType, V := c.value }

/-- The DHT after a finite sequence of `putMeta` calls on one key, made one
after another. -/
def DHT.putMetas {Hash : Type} [Stringer Hash] (dht : DHT Hash) (key : Hash)
    (calls : List (MetaCall Hash)) : DHT Hash :=
  calls.foldl (fun d c => (d.putMeta key c.metaKey c.metaType c.value).2) dht

/-- The struct `Node` as far as `dht.go` uses it: the field `HashAddr`. -/
structure Node (PID : Type) where
  /-- The peer identity of the node, also its network address. -/
  HashAddr : PID
deriving DecidableEq, Repr

/-- The arguments of one call of the transport `h.Send`: the addressee, the
message type and the body (the protocol and the receiver arguments are the
constants `DHTProtocol` and `DHTReceiver`). -/
structure Sent (Hash PID : Type) where
  /-- The addressee, the argument `to`. -/
  toPeer : PID
  /-- The message type. -/
  t : Int
  /-- The body. -/
  body : Body Hash
deriving DecidableEq, Repr

/-- The operations that `dht.go` calls and that are declared outside it, taken
as parameters: the private key of the local agent, the derivation of a peer
identity from a private key, and the transport `h.Send`, which is given the
node and returns a response, an error and the node after the exchange. -/
structure Collab (Hash PID Key : Type) where
  /-- The value of `dht.h.Agent().PrivKey()`. -/
  PrivKey : Key
  /-- The function `peer.IDFromPrivateKey`. -/
  IDFromPrivateKey : Key → PID × GoError
  /-- The method `h.Send(DHTProtocol, to, t, body, DHTReceiver)`. -/
  Send : Holochain Hash → PID → Int → Body Hash → Dispatch Hash

/-- The Go results of `DHT.Send` and `DHT.SendPut`, next to the node after the
call and the list of the messages handed to the transport during the call, in
order. -/
structure Outcome (Hash PID : Type) where
  /-- The result `response` (`nil` for `SendPut`, which has no such result). -/
  response : Option String
  /-- The result `err`. -/
  err : GoError
  /-- The node after the call. -/
  h : Holochain Hash
  /-- The messages handed to the transport. -/
  sent : List (Sent Hash PID)

/-- FindNodeForHash gets the nearest node to the neighborhood of the hash: for
now, the node it returns is self.  The result `n` is a pointer, `none` when
`nil`. -/
def DHT.FindNodeForHash {Hash PID Key : Type} (env : Collab Hash PID Key) (_key : Hash) :
    Option (Node PID) × GoError :=
  match env.IDFromPrivateKey env.PrivKey with
  | (_, some e) => (none, some e)
  | (pid, none) => (some { HashAddr := pid }, none)

/-- Send sends a message to the node: it forwards to the transport.  The
receiver `dht` is `h.dht`; the method reaches the node through `dht.h`. -/
def DHT.Send {Hash PID Key : Type} (env : Collab Hash PID Key) (h : Holochain Hash)
    (toPeer : PID) (t : Int) (body : Body Hash) : Outcome Hash PID :=
  { response := (env.Send h toPeer t body).response,
    err := (env.Send h toPeer t body).err,
    h := (env.Send h toPeer t body).h,
    sent := [{ toPeer := toPeer, t := t, body := body }] }

/-- SendPut initiates publishing a particular Hash to the DHT.  The result is
`none` when the Go code would dereference a `nil` node. -/
def DHT.SendPut {Hash PID Key : Type} (c : MsgTypes) (env : Collab Hash PID Key)
    (h : Holochain Hash) (key : Hash) : Option (Outcome Hash PID) :=
  match DHT.FindNodeForHash env key with
  | (_, some e) => some { response := none, err := some e, h := h, sent := [] }
  | (some n, none) =>
    some { response := none,
           err := (DHT.Send env h n.HashAddr c.PUT_REQUEST (Body.hash key)).err,
           h := (DHT.Send env h n.HashAddr c.PUT_REQUEST (Body.hash key)).h,
           sent := (DHT.Send env h n.HashAddr c.PUT_REQUEST (Body.hash key)).sent }
  | (none, none) => none

/-- The transport of the single-node case: every message is handed to the
local `DHTReceiver`, whoever the addressee. -/
def loopback {Hash PID : Type} (c : MsgTypes) (h : Holochain Hash) (_toPeer : PID) (t : Int)
    (body : Body Hash) : Dispatch Hash :=
  DHTReceiver c h { Typ := t, Body := body }

/-- Whether a message is a PUT_REQUEST whose body is a Hash. -/
def Message.isPutHash {Hash : Type} (c : MsgTypes) (m : Message Hash) : Bool :=
  decide (m.Typ = c.PUT_REQUEST) &&
    (match m.Body with
     | Body.hash _ => true
     | _ => false)

/-- The node after `DHTReceiver` has dispatched the messages one after
another. -/
def receiveAll {Hash : Type} (c : MsgTypes) (h : Holochain Hash) :
    List (Message Hash) → Holochain Hash
  | [] => h
  | m :: rest => receiveAll c (DHTReceiver c h m).h rest

/-- The messages of the list that `DHTReceiver` acknowledges with "queued" when
it dispatches them one after another, in order. -/
def accepted {Hash : Type} (c : MsgTypes) (h : Holochain Hash) :
    List (Message Hash) → List (Message Hash)
  | [] => []
  | m :: rest =>
    if (DHTReceiver c h m).response = some "queued" then
      m :: accepted c (DHTReceiver c h m).h rest
    else accepted c (DHTReceiver c h m).h rest

/-- A key type for examples: the encoding of a key is its text. -/
structure TextHash where
  /-- The text of the key. -/
  text : String
deriving DecidableEq, Repr

instance : Stringer TextHash := ⟨TextHash.text⟩

/-- Message type constants for examples. -/
def demoTypes : MsgTypes :=
  { PUT_REQUEST := 2, GET_REQUEST := 3, distinct := by decide }

/-- The invariant "metadata exists only for stored hashes": every key of the
metadata store is a key of the content store, and its sequence is not empty. -/
def DHT.MetaForStored {Hash : Type} (dht : DHT Hash) : Prop :=
  ∀ s : String, dht.metastore s ≠ none → dht.store s ≠ none ∧ dht.metastore s ≠ some []

/-- Collaborators for examples: peer identities and keys are numbers, the
identity of key `n` is `n + 100`, key 0 has no identity, and the transport is
the loopback. -/
def demoCollab (key : Nat) : Collab TextHash Nat Nat :=
  { PrivKey := key,
    IDFromPrivateKey := fun n => if n = 0 then (0, some "bad key") else (n + 100, none),
    Send := loopback demoTypes }

/-! ## Helper lemmas -/

section Helpers

variable {Hash : Type}

theorem GoMap.set_same {V : Type} (m : GoMap V) (k : String) (v : V) :
    m.set k v k = some v := by
  simp [GoMap.set]

theorem GoMap.set_other {V : Type} (m : GoMap V) (k s : String) (v : V) (hne : s ≠ k) :
    m.set k v s = m s := by
  simp [GoMap.set, hne]

theorem DHT.exists_eq_none_iff [Stringer Hash] (dht : DHT Hash) (key : Hash) :
    dht.exists key = none ↔ dht.store (Stringer.String key) ≠ none := by
  unfold DHT.exists
  cases dht.store (Stringer.String key) <;> simp

theorem DHT.exists_of_stored [Stringer Hash] (dht : DHT Hash) (key : Hash) (v : Bytes)
    (hs : dht.store (Stringer.String key) = some v) : dht.exists key = none := by
  simp [DHT.exists, hs]

theorem DHT.exists_of_absent [Stringer Hash] (dht : DHT Hash) (key : Hash)
    (hs : dht.store (Stringer.String key) = none) :
    dht.exists key = some ("No key: " ++ Stringer.String key) := by
  simp [DHT.exists, hs]

theorem DHT.get_of_stored [Stringer Hash] (dht : DHT Hash) (key : Hash) (v : Bytes)
    (hs : dht.store (Stringer.String key) = some v) : dht.get key = (v, none) := by
  simp [DHT.get, DHT.exists, hs]

theorem DHT.get_of_absent [Stringer Hash] (dht : DHT Hash) (key : Hash)
    (hs : dht.store (Stringer.String key) = none) :
    dht.get key = ([], some ("No key: " ++ Stringer.String key)) := by
  simp [DHT.get, DHT.exists, hs]

theorem DHT.put_store [Stringer Hash] (dht : DHT Hash) (key : Hash) (v : Bytes) :
    (dht.put key v).2.store = dht.store.set (Stringer.String key) v := rfl

theorem DHT.put_metastore [Stringer Hash] (dht : DHT Hash) (key : Hash) (v : Bytes) :
    (dht.put key v).2.metastore = dht.metastore := rfl

theorem DHT.putMeta_store [Stringer Hash] (dht : DHT Hash) (key metaKey : Hash) (t : String)
    (v : Bytes) :
    (dht.putMeta key metaKey t v).2.store = dht.store := by
  unfold DHT.putMeta
  cases dht.exists key <;> simp
  cases dht.metastore (Stringer.String key) <;> simp

theorem DHT.putMeta_of_absent [Stringer Hash] (dht : DHT Hash) (key metaKey : Hash) (t : String)
    (v : Bytes)
    (hs : dht.store (Stringer.String key) = none) :
    dht.putMeta key metaKey t v = (some ("No key: " ++ Stringer.String key), dht) := by
  simp [DHT.putMeta, DHT.exists, hs]

theorem DHT.putMeta_of_stored [Stringer Hash] (dht : DHT Hash) (key metaKey : Hash) (t : String)
    (v b : Bytes)
    (hs : dht.store (Stringer.String key) = some b) :
    dht.putMeta key metaKey t v
      = (none,
          { dht with
            metastore := dht.metastore.set (Stringer.String key)
              ((dht.metastore (Stringer.String key)).getD [] ++
                [{ H := metaKey, T := t, V := v }]) }) := by
  unfold DHT.putMeta DHT.exists
  rw [hs]
  cases hm : dht.metastore (Stringer.String key) <;> simp [hm]

theorem DHTReceiver_store (c : MsgTypes) (h : Holochain Hash) (m : Message Hash) :
    (DHTReceiver c h m).h.dht.store = h.dht.store := by
  unfold DHTReceiver
  split
  · split
    · split <;> rfl
    · rfl
  · split <;> rfl

theorem Holochain.step_store_absent [Stringer Hash] (c : MsgTypes) (h : Holochain Hash)
    (op : Op Hash)
    (s : String) (hop : ∀ k v, op = Op.put k v → Stringer.String k ≠ s)
    (hs : h.dht.store s = none) : (h.step c op).dht.store s = none := by
  cases op with
  | put key value =>
    have hne : s ≠ Stringer.String key := fun e => hop key value rfl e.symm
    simp [Holochain.step, DHT.put_store, GoMap.set_other _ _ _ _ hne, hs]
  | putMeta key metaKey metaType value =>
    simp [Holochain.step, DHT.putMeta_store, hs]
  | «exists» key => simpa [Holochain.step] using hs
  | get key => simpa [Holochain.step] using hs
  | getMeta key metaType => simpa [Holochain.step] using hs
  | receive m => simp [Holochain.step, DHTReceiver_store, hs]

theorem Holochain.run_store_absent [Stringer Hash] (c : MsgTypes) (ops : List (Op Hash))
    (h : Holochain Hash)
    (s : String) (hops : ∀ k v, Op.put k v ∈ ops → Stringer.String k ≠ s)
    (hs : h.dht.store s = none) : (h.run c ops).dht.store s = none := by
  induction ops generalizing h with
  | nil => simpa [Holochain.run] using hs
  | cons op rest ih =>
    have h1 : (h.step c op).dht.store s = none :=
      Holochain.step_store_absent c h op s
        (fun k v e => hops k v (by simp [e])) hs
    have h2 := ih (h.step c op) (fun k v hm => hops k v (by simp [hm])) h1
    simpa [Holochain.run] using h2

theorem filter_loop (test : Meta Hash → Bool) (ss acc : List (Meta Hash)) :
    ss.foldl (fun ret s => if test s then ret ++ [s] else ret) acc
      = acc ++ ss.filter test := by
  induction ss generalizing acc with
  | nil => simp
  | cons s rest ih =>
    rw [List.foldl_cons, ih]
    by_cases ht : test s = true <;> simp [List.filter_cons, ht]

theorem filter_eq (ss : List (Meta Hash)) (test : Meta Hash → Bool) :
    filter ss test = ss.filter test := by
  simp [filter, filter_loop]

theorem DHT.getMeta_of_absent [Stringer Hash] (dht : DHT Hash) (key : Hash) (t : String)
    (hs : dht.store (Stringer.String key) = none) :
    dht.getMeta key t = ([], some ("No key: " ++ Stringer.String key)) := by
  simp [DHT.getMeta, DHT.exists, hs]

theorem DHT.getMeta_of_stored [Stringer Hash] (dht : DHT Hash) (key : Hash) (t : String) (b : Bytes)
    (hs : dht.store (Stringer.String key) = some b) :
    dht.getMeta key t
      = (((dht.metastore (Stringer.String key)).getD []).filter (fun m => decide (m.T = t)),
          if (((dht.metastore (Stringer.String key)).getD []).filter
              (fun m => decide (m.T = t))).length = 0
          then some ("No values for " ++ t) else none) := by
  unfold DHT.getMeta DHT.exists
  rw [hs]
  cases hm : dht.metastore (Stringer.String key) with
  | none => simp [hm]
  | some v =>
    simp only [hm, filter_eq, Option.getD_some]
    split <;> rfl

theorem DHT.putMeta_stored_metastore [Stringer Hash] (dht : DHT Hash) (key metaKey : Hash)
    (t : String)
    (v b : Bytes) (hs : dht.store (Stringer.String key) = some b) :
    ((dht.putMeta key metaKey t v).2.metastore (Stringer.String key)).getD []
      = (dht.metastore (Stringer.String key)).getD [] ++ [{ H := metaKey, T := t, V := v }] := by
  rw [DHT.putMeta_of_stored _ _ _ _ _ b hs]
  simp [GoMap.set_same]

theorem DHT.putMetas_spec [Stringer Hash] (key : Hash) (b : Bytes) (calls : List (MetaCall Hash))
    (dht : DHT Hash) (hs : dht.store (Stringer.String key) = some b) :
    (dht.putMetas key calls).store = dht.store
    ∧ ((dht.putMetas key calls).metastore (Stringer.String key)).getD []
        = (dht.metastore (Stringer.String key)).getD [] ++ calls.map MetaCall.toMeta := by
  induction calls generalizing dht with
  | nil => simp [DHT.putMetas]
  | cons c rest ih =>
    have hs1 : (dht.putMeta key c.metaKey c.metaType c.value).2.store (Stringer.String key)
        = some b := by
      rw [DHT.putMeta_store]; exact hs
    obtain ⟨ih1, ih2⟩ := ih (dht.putMeta key c.metaKey c.metaType c.value).2 hs1
    have hunfold : dht.putMetas key (c :: rest)
        = (dht.putMeta key c.metaKey c.metaType c.value).2.putMetas key rest := rfl
    rw [hunfold]
    refine ⟨by rw [ih1, DHT.putMeta_store], ?_⟩
    rw [ih2, DHT.putMeta_stored_metastore _ _ _ _ _ b hs]
    simp [MetaCall.toMeta]

theorem Queue.Put_accepts (q : Queue Hash) (m : Message Hash) (hopen : q.disposed = false)
    (hroom : q.full = false) : q.Put m = (none, { q with items := q.items ++ [m] }) := by
  simp [Queue.Put, hopen, hroom]

theorem DHTReceiver_put_hash_ok (c : MsgTypes) (h : Holochain Hash) (m : Message Hash)
    (k : Hash) (q : Queue Hash) (hT : m.Typ = c.PUT_REQUEST) (hB : m.Body = Body.hash k)
    (hq : h.dht.Queue.Put m = (none, q)) :
    DHTReceiver c h m
      = { response := some "queued", err := none,
          h := { h with dht := { h.dht with Queue := q } } } := by
  unfold DHTReceiver
  rw [if_pos hT]
  simp [hB, hq]

theorem DHTReceiver_put_hash_err (c : MsgTypes) (h : Holochain Hash) (m : Message Hash)
    (k : Hash) (e : String) (q : Queue Hash) (hT : m.Typ = c.PUT_REQUEST)
    (hB : m.Body = Body.hash k) (hq : h.dht.Queue.Put m = (some e, q)) :
    DHTReceiver c h m
      = { response := none, err := some e,
          h := { h with dht := { h.dht with Queue := q } } } := by
  unfold DHTReceiver
  rw [if_pos hT]
  simp [hB, hq]

theorem DHTReceiver_put_other (c : MsgTypes) (h : Holochain Hash) (m : Message Hash)
    (hT : m.Typ = c.PUT_REQUEST) (hB : ∀ k, m.Body ≠ Body.hash k) :
    DHTReceiver c h m = { response := none, err := some "expected hash", h := h } := by
  unfold DHTReceiver
  rw [if_pos hT]
  cases hb : m.Body with
  | hash k => exact absurd hb (hB k)
  | nil => rfl
  | other t x => rfl

theorem DHTReceiver_get (c : MsgTypes) (h : Holochain Hash) (m : Message Hash)
    (hT : m.Typ = c.GET_REQUEST) :
    DHTReceiver c h m = { response := none, err := none, h := h } := by
  have hne : m.Typ ≠ c.PUT_REQUEST := fun e => c.distinct (e.symm.trans hT)
  unfold DHTReceiver
  rw [if_neg hne, if_pos hT]

theorem DHTReceiver_unknown (c : MsgTypes) (h : Holochain Hash) (m : Message Hash)
    (hP : m.Typ ≠ c.PUT_REQUEST) (hG : m.Typ ≠ c.GET_REQUEST) :
    DHTReceiver c h m
      = { response := none,
          err := some ("message type " ++ toString m.Typ ++ " not in holochain-dht protocol"),
          h := h } := by
  unfold DHTReceiver
  rw [if_neg hP, if_neg hG]

end Helpers

/-! ## The content store -/

section Claims

variable {Hash : Type}

/-- C1: for every DHT state, key and value, `put` returns no error, and in the
resulting state `get` returns exactly the value with no error and `exists`
reports the key as present; the same holds when the key was already stored with
another value, which the second `put` overwrites. -/
theorem put_then_get_exists [Stringer Hash] (dht : DHT Hash) (k : Hash) (v v0 : Bytes) :
    (dht.put k v).1 = none
    ∧ (dht.put k v).2.get k = (v, none)
    ∧ (dht.put k v).2.exists k = none
    ∧ ((dht.put k v0).2.put k v).1 = none
    ∧ ((dht.put k v0).2.put k v).2.get k = (v, none)
    ∧ ((dht.put k v0).2.put k v).2.exists k = none := by
  have key : ∀ d : DHT Hash, (d.put k v).2.store (Stringer.String k) = some v := fun d => by
    rw [DHT.put_store]; exact GoMap.set_same _ _ _
  exact ⟨rfl, DHT.get_of_stored _ _ _ (key dht), DHT.exists_of_stored _ _ _ (key dht), rfl,
    DHT.get_of_stored _ _ _ (key _), DHT.exists_of_stored _ _ _ (key _)⟩

/-- C2: on a DHT just returned by `NewDHT`, `exists` returns the error
"No key: ..." and `get` returns no data and that error; in every state
`exists` and `get` fail exactly when the string encoding of the key is not a
key of the store; and after any sequence of calls from a new DHT in which no
`put` had a key with the encoding of `k`, `exists k` and `get k` fail and `get`
returns no data. -/
theorem never_put_not_found [Stringer Hash] (c : MsgTypes) (dht : DHT Hash) (k : Hash)
    (ops : List (Op Hash))
    (hops : ∀ k1 v, Op.put k1 v ∈ ops → Stringer.String k1 ≠ Stringer.String k) :
    ((NewDHT : DHT Hash).exists k = some ("No key: " ++ Stringer.String k)
      ∧ (NewDHT : DHT Hash).get k = ([], some ("No key: " ++ Stringer.String k)))
    ∧ (dht.exists k ≠ none ↔ dht.store (Stringer.String k) = none)
    ∧ ((dht.get k).2 ≠ none ↔ dht.store (Stringer.String k) = none)
    ∧ (dht.store (Stringer.String k) = none → (dht.get k).1 = [])
    ∧ ((Holochain.run c { dht := NewDHT } ops).dht.exists k
        = some ("No key: " ++ Stringer.String k)
      ∧ (Holochain.run c { dht := NewDHT } ops).dht.get k
        = ([], some ("No key: " ++ Stringer.String k))) := by
  have hnew : (NewDHT : DHT Hash).store (Stringer.String k) = none := rfl
  have hrun := Holochain.run_store_absent c ops { dht := NewDHT } (Stringer.String k) hops hnew
  refine ⟨⟨DHT.exists_of_absent _ _ hnew, DHT.get_of_absent _ _ hnew⟩, ?_, ?_, ?_,
    DHT.exists_of_absent _ _ hrun, DHT.get_of_absent _ _ hrun⟩
  · unfold DHT.exists
    cases dht.store (Stringer.String k) <;> simp
  · unfold DHT.get DHT.exists
    cases dht.store (Stringer.String k) <;> simp
  · intro hs
    rw [DHT.get_of_absent _ _ hs]

/-- Witness of C2: a trace that puts "a", attaches metadata to it and receives
a message never stores "b". -/
theorem never_put_not_found_witness :
    (Holochain.run demoTypes { dht := (NewDHT : DHT TextHash) }
        [Op.put ⟨"a"⟩ [1], Op.putMeta ⟨"a"⟩ ⟨"b"⟩ "link" [2],
         Op.receive { Typ := 2, Body := Body.hash ⟨"b"⟩ }]).dht.get ⟨"b"⟩
      = ([], some "No key: b") :=
  (never_put_not_found demoTypes NewDHT (⟨"b"⟩ : TextHash)
    [Op.put ⟨"a"⟩ [1], Op.putMeta ⟨"a"⟩ ⟨"b"⟩ "link" [2],
     Op.receive { Typ := 2, Body := Body.hash ⟨"b"⟩ }]
    (by
      intro k1 v hm
      simp at hm
      rw [hm.1]
      decide)).2.2.2.2.2

/-- C3: `putMeta` fails if and only if the key is absent from the content
store, whatever the meta key; when it fails the DHT, hence both stores, is left
exactly as it was. -/
theorem putMeta_fails_iff_absent [Stringer Hash] (dht : DHT Hash) (key metaKey : Hash)
    (metaType : String)
    (value : Bytes) :
    ((dht.putMeta key metaKey metaType value).1 ≠ none
      ↔ dht.store (Stringer.String key) = none)
    ∧ ((dht.putMeta key metaKey metaType value).1 ≠ none →
        (dht.putMeta key metaKey metaType value).2 = dht) := by
  cases hs : dht.store (Stringer.String key) with
  | none => simp [DHT.putMeta_of_absent _ _ _ _ _ hs]
  | some b => simp [DHT.putMeta_of_stored _ _ _ _ _ b hs]

/-! ## The metadata store -/

/-- C4: starting from a DHT in which `k` has no metadata, after `put k v` and
then `putMeta k mk T val` (both without error), `getMeta k T` returns exactly
the one-element sequence holding the new Meta, with no error, and for a type
`U` other than `T`, `getMeta k U` fails with the error "No values for U". -/
theorem put_putMeta_getMeta [Stringer Hash] (dht : DHT Hash) (k mk : Hash) (v val : Bytes)
    (T U : String)
    (hfresh : dht.metastore (Stringer.String k) = none) (hTU : T ≠ U) :
    (dht.put k v).1 = none
    ∧ ((dht.put k v).2.putMeta k mk T val).1 = none
    ∧ ((dht.put k v).2.putMeta k mk T val).2.getMeta k T
        = ([{ H := mk, T := T, V := val }], none)
    ∧ ((dht.put k v).2.putMeta k mk T val).2.getMeta k U
        = ([], some ("No values for " ++ U)) := by
  have hstore : (dht.put k v).2.store (Stringer.String k) = some v := by
    rw [DHT.put_store]; exact GoMap.set_same _ _ _
  have hmeta : (dht.put k v).2.metastore (Stringer.String k) = none := by
    rw [DHT.put_metastore]; exact hfresh
  have hpm := DHT.putMeta_of_stored (dht.put k v).2 k mk T val v hstore
  have hstore2 : ((dht.put k v).2.putMeta k mk T val).2.store (Stringer.String k) = some v := by
    rw [DHT.putMeta_store]; exact hstore
  have hmeta2 : ((dht.put k v).2.putMeta k mk T val).2.metastore (Stringer.String k)
      = some [{ H := mk, T := T, V := val }] := by
    rw [hpm]
    simp [GoMap.set_same, hmeta]
  refine ⟨rfl, by rw [hpm], ?_, ?_⟩
  · rw [DHT.getMeta_of_stored _ _ _ v hstore2, hmeta2]
    simp
  · rw [DHT.getMeta_of_stored _ _ _ v hstore2, hmeta2]
    simp [hTU]

/-- Witness of C4 on a new DHT with key "A", meta key "B" and the types "link"
and "tag". -/
theorem put_putMeta_getMeta_witness :
    (((NewDHT : DHT TextHash).put ⟨"A"⟩ [118, 49]).2.putMeta ⟨"A"⟩ ⟨"B"⟩ "link" [109]).2.getMeta
        ⟨"A"⟩ "link"
      = ([{ H := ⟨"B"⟩, T := "link", V := [109] }], none) :=
  (put_putMeta_getMeta (NewDHT : DHT TextHash) ⟨"A"⟩ ⟨"B"⟩ [118, 49] [109] "link" "tag"
    rfl (by decide)).2.2.1

/-- C5: metadata accumulates in call order without deduplication.  For a
stored key `k` and any finite sequence of `putMeta` calls on `k`, the sequence
returned by `getMeta k T` afterwards is the sequence it returned before
followed by the Metas of exactly the calls of type `T`, in call order, and
`getMeta k T` then succeeds exactly when that sequence is non-empty; a single
call of a type other than `T` leaves the results of `getMeta k T` as they
were. -/
theorem putMeta_accumulates [Stringer Hash] (dht : DHT Hash) (k mk : Hash) (calls : List
    (MetaCall Hash))
    (T T1 : String) (val : Bytes)
    (hs : dht.store (Stringer.String k) ≠ none) (hT : T1 ≠ T) :
    ((dht.putMetas k calls).getMeta k T).1
        = (dht.getMeta k T).1
          ++ (calls.filter (fun c => decide (c.metaType = T))).map MetaCall.toMeta
    ∧ (((dht.putMetas k calls).getMeta k T).2 = none
        ↔ ((dht.putMetas k calls).getMeta k T).1 ≠ [])
    ∧ (dht.putMeta k mk T1 val).1 = none
    ∧ (dht.putMeta k mk T1 val).2.getMeta k T = dht.getMeta k T := by
  obtain ⟨b, hb⟩ := Option.ne_none_iff_exists'.mp hs
  obtain ⟨hst, hms⟩ := DHT.putMetas_spec k b calls dht hb
  have hb1 : (dht.putMetas k calls).store (Stringer.String k) = some b := by rw [hst]; exact hb
  have hb2 : (dht.putMeta k mk T1 val).2.store (Stringer.String k) = some b := by
    rw [DHT.putMeta_store]; exact hb
  refine ⟨?_, ?_, ?_, ?_⟩
  · rw [DHT.getMeta_of_stored _ _ _ b hb1, DHT.getMeta_of_stored _ _ _ b hb, hms]
    simp only [List.filter_append, List.filter_map]
    congr 1
  · rw [DHT.getMeta_of_stored _ _ _ b hb1]
    simp only
    split
    · rename_i h0
      simp [List.length_eq_zero.mp h0]
    · rename_i h0
      simpa using h0
  · rw [DHT.putMeta_of_stored _ _ _ _ _ b hb]
  · rw [DHT.getMeta_of_stored _ _ _ b hb2, DHT.getMeta_of_stored _ _ _ b hb,
      DHT.putMeta_stored_metastore _ _ _ _ _ b hb]
    simp [List.filter_append, hT]

/-- Witness of C5: three calls on the stored key "A", two of type "link" (one
of them made twice over) and one of type "tag". -/
theorem putMeta_accumulates_witness :
    ((((NewDHT : DHT TextHash).put ⟨"A"⟩ [1]).2.putMetas ⟨"A"⟩
        [⟨⟨"B"⟩, "link", [7]⟩, ⟨⟨"C"⟩, "tag", [8]⟩, ⟨⟨"B"⟩, "link", [7]⟩]).getMeta ⟨"A"⟩ "link").1
      = (((NewDHT : DHT TextHash).put ⟨"A"⟩ [1]).2.getMeta ⟨"A"⟩ "link").1
        ++ (([⟨⟨"B"⟩, "link", [7]⟩, ⟨⟨"C"⟩, "tag", [8]⟩, ⟨⟨"B"⟩, "link", [7]⟩] :
              List (MetaCall TextHash)).filter
            (fun c => decide (c.metaType = "link"))).map MetaCall.toMeta :=
  (putMeta_accumulates ((NewDHT : DHT TextHash).put ⟨"A"⟩ [1]).2 ⟨"A"⟩ ⟨"B"⟩
    [⟨⟨"B"⟩, "link", [7]⟩, ⟨⟨"C"⟩, "tag", [8]⟩, ⟨⟨"B"⟩, "link", [7]⟩] "link" "tag" [9]
    (by simp [DHT.put_store, GoMap.set_same, Stringer.String]) (by decide)).1

/-- C6: `getMeta` fails if and only if the key is absent from the content
store or no Meta of the requested type is stored for the key; when it succeeds
the result is non-empty and is the sequence of the Metas stored for the key
whose type equals the requested type, in their stored order. -/
theorem getMeta_fails_iff [Stringer Hash] (dht : DHT Hash) (key : Hash) (metaType : String) :
    ((dht.getMeta key metaType).2 ≠ none
      ↔ dht.store (Stringer.String key) = none
        ∨ ∀ m ∈ (dht.metastore (Stringer.String key)).getD [], m.T ≠ metaType)
    ∧ ((dht.getMeta key metaType).2 = none →
        (dht.getMeta key metaType).1 ≠ []
        ∧ (dht.getMeta key metaType).1
            = ((dht.metastore (Stringer.String key)).getD []).filter
                (fun m => decide (m.T = metaType))) := by
  cases hs : dht.store (Stringer.String key) with
  | none => simp [DHT.getMeta_of_absent _ _ _ hs]
  | some b =>
    rw [DHT.getMeta_of_stored _ _ _ b hs]
    constructor
    · simp only
      split
      · rename_i h0
        have h1 := List.length_eq_zero.mp h0
        simp only [List.filter_eq_nil_iff, decide_eq_true_eq] at h1
        simp
        exact h1
      · rename_i h0
        have h1 : ¬ (List.filter (fun m => decide (m.T = metaType))
            ((dht.metastore (Stringer.String key)).getD [])) = [] :=
          fun e => h0 (by rw [e]; rfl)
        simp only [List.filter_eq_nil_iff, decide_eq_true_eq] at h1
        simp only [ne_eq, not_true_eq_false, false_iff, reduceCtorEq, false_or]
        exact h1
    · simp only
      split
      · simp
      · rename_i h0
        intro _
        exact ⟨fun e => h0 (by rw [e]; rfl), trivial⟩

/-! ## The message dispatcher -/

/-- C7: for a PUT_REQUEST message dispatched while the queue accepts items
(open and not at capacity): if the body is a Hash, the message is appended as
one item at the tail of the request queue, the response is "queued" and there
is no error; if the body is of any other shape, the node (its queue included)
is unchanged, the response is empty and the error is "expected hash". -/
theorem put_request_dispatch (c : MsgTypes) (h : Holochain Hash) (m : Message Hash)
    (hT : m.Typ = c.PUT_REQUEST) (hopen : h.dht.Queue.disposed = false)
    (hroom : h.dht.Queue.full = false) :
    (∀ k, m.Body = Body.hash k →
      (DHTReceiver c h m).response = some "queued"
      ∧ (DHTReceiver c h m).err = none
      ∧ (DHTReceiver c h m).h.dht.Queue.items = h.dht.Queue.items ++ [m])
    ∧ ((∀ k, m.Body ≠ Body.hash k) →
      (DHTReceiver c h m).response = none
      ∧ (DHTReceiver c h m).err = some "expected hash"
      ∧ (DHTReceiver c h m).h = h) := by
  constructor
  · intro k hB
    rw [DHTReceiver_put_hash_ok c h m k _ hT hB (Queue.Put_accepts _ m hopen hroom)]
    exact ⟨rfl, rfl, rfl⟩
  · intro hB
    rw [DHTReceiver_put_other c h m hT hB]
    exact ⟨rfl, rfl, rfl⟩

/-- Witness of C7: a PUT_REQUEST with the hash "A" dispatched on a new node is
queued. -/
theorem put_request_dispatch_witness :
    (DHTReceiver demoTypes { dht := (NewDHT : DHT TextHash) }
        { Typ := 2, Body := Body.hash ⟨"A"⟩ }).response = some "queued"
    ∧ (DHTReceiver demoTypes { dht := (NewDHT : DHT TextHash) }
        { Typ := 2, Body := Body.hash ⟨"A"⟩ }).err = none
    ∧ (DHTReceiver demoTypes { dht := (NewDHT : DHT TextHash) }
        { Typ := 2, Body := Body.hash ⟨"A"⟩ }).h.dht.Queue.items
      = [] ++ [{ Typ := 2, Body := Body.hash ⟨"A"⟩ }] :=
  (put_request_dispatch demoTypes { dht := (NewDHT : DHT TextHash) }
    { Typ := 2, Body := Body.hash ⟨"A"⟩ } rfl rfl rfl).1 ⟨"A"⟩ rfl

/-- C8: for a message whose type is neither PUT_REQUEST nor GET_REQUEST,
whatever its body, `DHTReceiver` returns an empty response and the error
"message type N not in holochain-dht protocol", N being the type as a decimal
number, and the node (content store, metadata store and request queue) is
unchanged. -/
theorem unknown_type_rejected (c : MsgTypes) (h : Holochain Hash) (m : Message Hash)
    (hP : m.Typ ≠ c.PUT_REQUEST) (hG : m.Typ ≠ c.GET_REQUEST) :
    (DHTReceiver c h m).response = none
    ∧ (DHTReceiver c h m).err
        = some ("message type " ++ toString m.Typ ++ " not in holochain-dht protocol")
    ∧ (DHTReceiver c h m).h = h
    ∧ (DHTReceiver c h m).h.dht.store = h.dht.store
    ∧ (DHTReceiver c h m).h.dht.metastore = h.dht.metastore
    ∧ (DHTReceiver c h m).h.dht.Queue.items = h.dht.Queue.items := by
  rw [DHTReceiver_unknown c h m hP hG]
  exact ⟨rfl, rfl, rfl, rfl, rfl, rfl⟩

/-- Witness of C8: a message of type 7 with a hash body. -/
theorem unknown_type_rejected_witness :
    (DHTReceiver demoTypes { dht := (NewDHT : DHT TextHash) }
        { Typ := 7, Body := Body.hash ⟨"A"⟩ }).err
      = some "message type 7 not in holochain-dht protocol" :=
  (unknown_type_rejected demoTypes { dht := (NewDHT : DHT TextHash) }
    { Typ := 7, Body := Body.hash ⟨"A"⟩ } (by decide) (by decide)).2.1

/-- C9: no acknowledgement on failure.  Whenever `DHTReceiver` returns an error
its response is empty; when the queue rejects a PUT_REQUEST with a Hash body,
`DHTReceiver` returns the error of the queue and no response; and the response
is "queued" if and only if the type is PUT_REQUEST, the body is a Hash and the
enqueue succeeded (no other response is ever given). -/
theorem no_ack_on_failure (c : MsgTypes) (h : Holochain Hash) (m : Message Hash) :
    ((DHTReceiver c h m).err ≠ none → (DHTReceiver c h m).response = none)
    ∧ (∀ k e, m.Typ = c.PUT_REQUEST → m.Body = Body.hash k →
        (h.dht.Queue.Put m).1 = some e →
        (DHTReceiver c h m).err = some e ∧ (DHTReceiver c h m).response = none)
    ∧ ((DHTReceiver c h m).response = some "queued"
        ↔ m.Typ = c.PUT_REQUEST ∧ (∃ k, m.Body = Body.hash k)
          ∧ (h.dht.Queue.Put m).1 = none)
    ∧ ((DHTReceiver c h m).response ≠ none →
        (DHTReceiver c h m).response = some "queued") := by
  by_cases hP : m.Typ = c.PUT_REQUEST
  · cases hb : m.Body with
    | hash k =>
      cases hq : h.dht.Queue.Put m with
      | mk e q =>
        cases e with
        | none =>
          rw [DHTReceiver_put_hash_ok c h m k q hP hb hq]
          simp [hP]
        | some e =>
          rw [DHTReceiver_put_hash_err c h m k e q hP hb hq]
          simp
    | nil =>
      rw [DHTReceiver_put_other c h m hP (by simp [hb])]
      simp
    | other t x =>
      rw [DHTReceiver_put_other c h m hP (by simp [hb])]
      simp
  · by_cases hG : m.Typ = c.GET_REQUEST
    · rw [DHTReceiver_get c h m hG]
      simp [hP]
    · rw [DHTReceiver_unknown c h m hP hG]
      simp [hP]

/-- C10, as stated, fails: with the hash "A" stored under the value
`[118, 49]`, a GET_REQUEST carrying "A" gets an empty response (no value, no
metadata) and no error; and on a new node, where "A" is not stored, the same
request gets an empty response and no error, hence no not-found indication. -/
theorem get_request_counterexample :
    (((NewDHT : DHT TextHash).put ⟨"A"⟩ [118, 49]).2.get ⟨"A"⟩ = ([118, 49], none)
      ∧ (DHTReceiver demoTypes { dht := ((NewDHT : DHT TextHash).put ⟨"A"⟩ [118, 49]).2 }
          { Typ := demoTypes.GET_REQUEST, Body := Body.hash ⟨"A"⟩ }).response = none
      ∧ (DHTReceiver demoTypes { dht := ((NewDHT : DHT TextHash).put ⟨"A"⟩ [118, 49]).2 }
          { Typ := demoTypes.GET_REQUEST, Body := Body.hash ⟨"A"⟩ }).err = none)
    ∧ ((NewDHT : DHT TextHash).exists ⟨"A"⟩ = some "No key: A"
      ∧ (DHTReceiver demoTypes { dht := (NewDHT : DHT TextHash) }
          { Typ := demoTypes.GET_REQUEST, Body := Body.hash ⟨"A"⟩ }).response = none
      ∧ (DHTReceiver demoTypes { dht := (NewDHT : DHT TextHash) }
          { Typ := demoTypes.GET_REQUEST, Body := Body.hash ⟨"A"⟩ }).err = none) := by
  decide

/-- C10, amended: for every GET_REQUEST message, whatever its body and whether
or not the hash it carries is stored, `DHTReceiver` returns an empty response
and no error, and leaves the node (content store, metadata store and request
queue) unchanged. -/
theorem get_request_is_noop (c : MsgTypes) (h : Holochain Hash) (m : Message Hash)
    (hT : m.Typ = c.GET_REQUEST) :
    (DHTReceiver c h m).response = none
    ∧ (DHTReceiver c h m).err = none
    ∧ (DHTReceiver c h m).h = h := by
  rw [DHTReceiver_get c h m hT]
  exact ⟨rfl, rfl, rfl⟩

/-- Witness of C10 amended: a GET_REQUEST for the stored hash "A". -/
theorem get_request_is_noop_witness :
    (DHTReceiver demoTypes { dht := ((NewDHT : DHT TextHash).put ⟨"A"⟩ [118, 49]).2 }
        { Typ := 3, Body := Body.hash ⟨"A"⟩ }).response = none
    ∧ (DHTReceiver demoTypes { dht := ((NewDHT : DHT TextHash).put ⟨"A"⟩ [118, 49]).2 }
        { Typ := 3, Body := Body.hash ⟨"A"⟩ }).err = none
    ∧ (DHTReceiver demoTypes { dht := ((NewDHT : DHT TextHash).put ⟨"A"⟩ [118, 49]).2 }
        { Typ := 3, Body := Body.hash ⟨"A"⟩ }).h
      = { dht := ((NewDHT : DHT TextHash).put ⟨"A"⟩ [118, 49]).2 } :=
  get_request_is_noop demoTypes { dht := ((NewDHT : DHT TextHash).put ⟨"A"⟩ [118, 49]).2 }
    { Typ := 3, Body := Body.hash ⟨"A"⟩ } rfl

end Claims

/-! ## Sending a put and locating the responsible node -/

section Sending

variable {Hash PID Key : Type}

theorem DHT.FindNodeForHash_ok (env : Collab Hash PID Key) (k : Hash) (pid : PID)
    (hid : env.IDFromPrivateKey env.PrivKey = (pid, none)) :
    DHT.FindNodeForHash env k = (some { HashAddr := pid }, none) := by
  simp [DHT.FindNodeForHash, hid]

theorem DHT.FindNodeForHash_err (env : Collab Hash PID Key) (k : Hash) (pid : PID)
    (e : String) (hid : env.IDFromPrivateKey env.PrivKey = (pid, some e)) :
    DHT.FindNodeForHash env k = (none, some e) := by
  simp [DHT.FindNodeForHash, hid]

theorem DHT.SendPut_of_located (c : MsgTypes) (env : Collab Hash PID Key)
    (h : Holochain Hash) (k : Hash) (n : Node PID)
    (hn : DHT.FindNodeForHash env k = (some n, none)) :
    DHT.SendPut c env h k
      = some { response := none,
               err := (env.Send h n.HashAddr c.PUT_REQUEST (Body.hash k)).err,
               h := (env.Send h n.HashAddr c.PUT_REQUEST (Body.hash k)).h,
               sent := [{ toPeer := n.HashAddr, t := c.PUT_REQUEST, body := Body.hash k }] } := by
  simp [DHT.SendPut, hn, DHT.Send]

theorem DHT.SendPut_of_lookup_error (c : MsgTypes) (env : Collab Hash PID Key)
    (h : Holochain Hash) (k : Hash) (e : String)
    (hn : (DHT.FindNodeForHash env k).2 = some e) :
    DHT.SendPut c env h k = some { response := none, err := some e, h := h, sent := [] } := by
  unfold DHT.SendPut
  cases hf : DHT.FindNodeForHash env k with
  | mk n err =>
    rw [hf] at hn
    simp only at hn
    subst hn
    cases n <;> rfl

theorem DHTReceiver_metastore (c : MsgTypes) (h : Holochain Hash) (m : Message Hash) :
    (DHTReceiver c h m).h.dht.metastore = h.dht.metastore := by
  unfold DHTReceiver
  split
  · split
    · split <;> rfl
    · rfl
  · split <;> rfl

/-- C11: `SendPut` with the transport and the key derivation of the locator as
parameters.  If the locator fails, its error is returned, nothing is sent and
the node is unchanged.  Otherwise exactly one message is handed to the
transport, addressed to the located node, of type PUT_REQUEST and with the hash
alone as body; the error returned is the error of the transport, and the node
after the call is the node the transport left, so that `SendPut` writes nothing
itself.  `SendPut` always returns, and if the transport leaves the content
store and the metadata store as they are, so does `SendPut`. -/
theorem sendPut_sends_hash_only (c : MsgTypes) (env : Collab Hash PID Key)
    (h : Holochain Hash) (k : Hash) :
    (∀ e, (DHT.FindNodeForHash env k).2 = some e →
      DHT.SendPut c env h k = some { response := none, err := some e, h := h, sent := [] })
    ∧ (∀ n, DHT.FindNodeForHash env k = (some n, none) →
      ∃ r, DHT.SendPut c env h k = some r
        ∧ r.sent = [{ toPeer := n.HashAddr, t := c.PUT_REQUEST, body := Body.hash k }]
        ∧ r.err = (env.Send h n.HashAddr c.PUT_REQUEST (Body.hash k)).err
        ∧ r.h = (env.Send h n.HashAddr c.PUT_REQUEST (Body.hash k)).h)
    ∧ DHT.SendPut c env h k ≠ none
    ∧ ((∀ h1 p t b, (env.Send h1 p t b).h.dht.store = h1.dht.store
          ∧ (env.Send h1 p t b).h.dht.metastore = h1.dht.metastore) →
        ∀ r, DHT.SendPut c env h k = some r →
          r.h.dht.store = h.dht.store ∧ r.h.dht.metastore = h.dht.metastore) := by
  refine ⟨fun e he => DHT.SendPut_of_lookup_error c env h k e he,
    fun n hn => ⟨_, DHT.SendPut_of_located c env h k n hn, rfl, rfl, rfl⟩, ?_, ?_⟩
  · cases hid : env.IDFromPrivateKey env.PrivKey with
    | mk pid err =>
      cases err with
      | none =>
        rw [DHT.SendPut_of_located c env h k _ (DHT.FindNodeForHash_ok env k pid hid)]
        simp
      | some e =>
        rw [DHT.SendPut_of_lookup_error c env h k e
          (by rw [DHT.FindNodeForHash_err env k pid e hid])]
        simp
  · intro hframe r hr
    cases hid : env.IDFromPrivateKey env.PrivKey with
    | mk pid err =>
      cases err with
      | none =>
        rw [DHT.SendPut_of_located c env h k _ (DHT.FindNodeForHash_ok env k pid hid)] at hr
        cases hr
        exact hframe h pid c.PUT_REQUEST (Body.hash k)
      | some e =>
        rw [DHT.SendPut_of_lookup_error c env h k e
          (by rw [DHT.FindNodeForHash_err env k pid e hid])] at hr
        cases hr
        exact ⟨rfl, rfl⟩

/-- Witness of C11: with the loopback transport, which leaves both stores as
they are, `SendPut` of the hash "A" on a node that stores "A" hands one
PUT_REQUEST to the transport and leaves both stores as they were. -/
theorem sendPut_sends_hash_only_witness :
    (DHTReceiver demoTypes { dht := ((NewDHT : DHT TextHash).put ⟨"A"⟩ [1]).2 }
        { Typ := 2, Body := Body.hash ⟨"A"⟩ }).h.dht.store
      = ((NewDHT : DHT TextHash).put ⟨"A"⟩ [1]).2.store
    ∧ (DHTReceiver demoTypes { dht := ((NewDHT : DHT TextHash).put ⟨"A"⟩ [1]).2 }
        { Typ := 2, Body := Body.hash ⟨"A"⟩ }).h.dht.metastore
      = ((NewDHT : DHT TextHash).put ⟨"A"⟩ [1]).2.metastore :=
  (sendPut_sends_hash_only demoTypes (demoCollab 1)
    { dht := ((NewDHT : DHT TextHash).put ⟨"A"⟩ [1]).2 } ⟨"A"⟩).2.2.2
    (fun h1 _ t b => ⟨DHTReceiver_store demoTypes h1 { Typ := t, Body := b },
      DHTReceiver_metastore demoTypes h1 { Typ := t, Body := b }⟩)
    { response := none, err := none,
      h := (DHTReceiver demoTypes { dht := ((NewDHT : DHT TextHash).put ⟨"A"⟩ [1]).2 }
        { Typ := 2, Body := Body.hash ⟨"A"⟩ }).h,
      sent := [{ toPeer := 101, t := 2, body := Body.hash ⟨"A"⟩ }] }
    rfl

/-- C12: the single-node round trip.  When the key derivation of the locator
succeeds, so that the locator resolves to the local node, and the transport
hands a message for the local node to the local `DHTReceiver`, then, provided
the request queue accepts items, `SendPut k` returns no error, exactly one
message, a PUT_REQUEST with body `k`, is appended at the tail of the local
request queue, and the content store and the metadata store are unchanged. -/
theorem single_node_round_trip (c : MsgTypes) (env : Collab Hash PID Key)
    (h : Holochain Hash) (k : Hash) (pid : PID)
    (hid : env.IDFromPrivateKey env.PrivKey = (pid, none))
    (hloop : ∀ h1 t b, env.Send h1 pid t b = DHTReceiver c h1 { Typ := t, Body := b })
    (hopen : h.dht.Queue.disposed = false) (hroom : h.dht.Queue.full = false) :
    ∃ r, DHT.SendPut c env h k = some r
      ∧ r.err = none
      ∧ r.sent = [{ toPeer := pid, t := c.PUT_REQUEST, body := Body.hash k }]
      ∧ r.h.dht.Queue.items
          = h.dht.Queue.items ++ [{ Typ := c.PUT_REQUEST, Body := Body.hash k }]
      ∧ r.h.dht.store = h.dht.store
      ∧ r.h.dht.metastore = h.dht.metastore := by
  have hs : env.Send h pid c.PUT_REQUEST (Body.hash k)
      = { response := some "queued", err := none,
          h := { h with dht := { h.dht with
            Queue := { h.dht.Queue with
              items := h.dht.Queue.items ++ [{ Typ := c.PUT_REQUEST, Body := Body.hash k }] } } } } := by
    rw [hloop]
    exact DHTReceiver_put_hash_ok c h { Typ := c.PUT_REQUEST, Body := Body.hash k } k _ rfl rfl
      (Queue.Put_accepts _ _ hopen hroom)
  refine ⟨_, DHT.SendPut_of_located c env h k _ (DHT.FindNodeForHash_ok env k pid hid), ?_⟩
  simp [hs]

/-- Witness of C12: on a new node whose agent key is 1, hence whose identity
is 101, with the loopback transport. -/
theorem single_node_round_trip_witness :
    ∃ r, DHT.SendPut demoTypes (demoCollab 1) { dht := (NewDHT : DHT TextHash) } ⟨"A"⟩ = some r
      ∧ r.err = none
      ∧ r.sent = [{ toPeer := 101, t := 2, body := Body.hash ⟨"A"⟩ }]
      ∧ r.h.dht.Queue.items = [] ++ [{ Typ := 2, Body := Body.hash ⟨"A"⟩ }]
      ∧ r.h.dht.store = (NewDHT : DHT TextHash).store
      ∧ r.h.dht.metastore = (NewDHT : DHT TextHash).metastore :=
  single_node_round_trip demoTypes (demoCollab 1) { dht := (NewDHT : DHT TextHash) } ⟨"A"⟩ 101
    rfl (fun _ _ _ => rfl) rfl rfl

/-- C18: the responsible-node lookup does not depend on the key.  For all keys
`k1` and `k2`, `FindNodeForHash k1` and `FindNodeForHash k2` give the same
result; when the derivation of the peer identity from the private key of the
local agent succeeds, the result is a node whose address is that identity, with
no error; the lookup fails exactly when the derivation fails, with the error of
the derivation, and then returns no node. -/
theorem lookup_is_self (env : Collab Hash PID Key) (k1 k2 : Hash) :
    DHT.FindNodeForHash env k1 = DHT.FindNodeForHash env k2
    ∧ (∀ pid, env.IDFromPrivateKey env.PrivKey = (pid, none) →
        DHT.FindNodeForHash env k1 = (some { HashAddr := pid }, none))
    ∧ (DHT.FindNodeForHash env k1).2 = (env.IDFromPrivateKey env.PrivKey).2
    ∧ ((DHT.FindNodeForHash env k1).2 ≠ none ↔ (env.IDFromPrivateKey env.PrivKey).2 ≠ none)
    ∧ ((DHT.FindNodeForHash env k1).2 ≠ none → (DHT.FindNodeForHash env k1).1 = none) := by
  refine ⟨rfl, fun pid hid => DHT.FindNodeForHash_ok env k1 pid hid, ?_, ?_, ?_⟩
  all_goals
    cases hid : env.IDFromPrivateKey env.PrivKey with
    | mk pid err =>
      cases err with
      | none => simp [DHT.FindNodeForHash_ok env k1 pid hid]
      | some e => simp [DHT.FindNodeForHash_err env k1 pid e hid]

end Sending

/-! ## Invariants of the stores -/

section Invariants

variable {Hash : Type}

theorem DHT.MetaForStored_put [Stringer Hash] (dht : DHT Hash) (key : Hash) (v : Bytes)
    (hinv : dht.MetaForStored) : (dht.put key v).2.MetaForStored := by
  intro s hs
  rw [DHT.put_metastore] at hs ⊢
  refine ⟨?_, (hinv s hs).2⟩
  rw [DHT.put_store]
  by_cases he : s = Stringer.String key
  · simp [GoMap.set, he]
  · rw [GoMap.set_other _ _ _ _ he]
    exact (hinv s hs).1

theorem DHT.MetaForStored_putMeta [Stringer Hash] (dht : DHT Hash) (key metaKey : Hash)
    (t : String) (v : Bytes) (hinv : dht.MetaForStored) :
    (dht.putMeta key metaKey t v).2.MetaForStored := by
  cases hst : dht.store (Stringer.String key) with
  | none =>
    rw [DHT.putMeta_of_absent _ _ _ _ _ hst]
    exact hinv
  | some b =>
    intro s hs
    rw [DHT.putMeta_store]
    rw [DHT.putMeta_of_stored _ _ _ _ _ b hst] at hs ⊢
    by_cases he : s = Stringer.String key
    · subst he
      refine ⟨by rw [hst]; simp, ?_⟩
      simp [GoMap.set]
    · simp only [GoMap.set, he, if_false] at hs ⊢
      exact hinv s hs

theorem Holochain.step_MetaForStored [Stringer Hash] (c : MsgTypes) (h : Holochain Hash)
    (op : Op Hash) (hinv : h.dht.MetaForStored) : (h.step c op).dht.MetaForStored := by
  cases op with
  | put key value => exact DHT.MetaForStored_put _ _ _ hinv
  | putMeta key metaKey metaType value => exact DHT.MetaForStored_putMeta _ _ _ _ _ hinv
  | «exists» key => exact hinv
  | get key => exact hinv
  | getMeta key metaType => exact hinv
  | receive m =>
    intro s hs
    have h1 : (h.step c (Op.receive m)).dht.store = h.dht.store := DHTReceiver_store c h m
    have h2 : (h.step c (Op.receive m)).dht.metastore = h.dht.metastore :=
      DHTReceiver_metastore c h m
    rw [h2] at hs ⊢
    rw [h1]
    exact hinv s hs

theorem Holochain.run_MetaForStored [Stringer Hash] (c : MsgTypes) (ops : List (Op Hash))
    (h : Holochain Hash) (hinv : h.dht.MetaForStored) : (h.run c ops).dht.MetaForStored := by
  induction ops generalizing h with
  | nil => exact hinv
  | cons op rest ih => exact ih (h.step c op) (Holochain.step_MetaForStored c h op hinv)

/-- C13: metadata exists only for stored hashes.  In every state reached from
`NewDHT` by a finite sequence of `put`, `putMeta`, `exists`, `get`, `getMeta`
and `DHTReceiver` calls, every key that has an entry in the metadata store is a
key of the content store, and its metadata sequence is not empty. -/
theorem meta_only_for_stored [Stringer Hash] (c : MsgTypes) (ops : List (Op Hash))
    (s : String) :
    (Holochain.run c { dht := (NewDHT : DHT Hash) } ops).dht.metastore s ≠ none →
      (Holochain.run c { dht := (NewDHT : DHT Hash) } ops).dht.store s ≠ none
      ∧ (Holochain.run c { dht := (NewDHT : DHT Hash) } ops).dht.metastore s ≠ some [] := by
  have hnew : (NewDHT : DHT Hash).MetaForStored := fun s hs => absurd rfl hs
  exact Holochain.run_MetaForStored c ops { dht := NewDHT } hnew s

/-- Witness of C13: after `put` and `putMeta` on "A", the key "A" has an
entry in the metadata store. -/
theorem meta_only_for_stored_witness :
    (Holochain.run demoTypes { dht := (NewDHT : DHT TextHash) }
        [Op.put ⟨"A"⟩ [1], Op.putMeta ⟨"A"⟩ ⟨"B"⟩ "link" [2]]).dht.metastore "A" ≠ none
    ∧ (Holochain.run demoTypes { dht := (NewDHT : DHT TextHash) }
        [Op.put ⟨"A"⟩ [1], Op.putMeta ⟨"A"⟩ ⟨"B"⟩ "link" [2]]).dht.store "A" ≠ none
    ∧ (Holochain.run demoTypes { dht := (NewDHT : DHT TextHash) }
        [Op.put ⟨"A"⟩ [1], Op.putMeta ⟨"A"⟩ ⟨"B"⟩ "link" [2]]).dht.metastore "A" ≠ some [] :=
  ⟨by decide,
    @meta_only_for_stored TextHash _ demoTypes
      [Op.put ⟨"A"⟩ [1], Op.putMeta ⟨"A"⟩ ⟨"B"⟩ "link" [2]] "A" (by decide)⟩

/-- C14: the stores only grow.  For every call of the DHT interface and every
state, each key of the content store before the call is a key after it, each
key of the metadata store before the call is a key after it, and for each key
the metadata sequence held before the call is an initial segment of the
sequence held after it. -/
theorem stores_only_grow [Stringer Hash] (c : MsgTypes) (h : Holochain Hash) (op : Op Hash)
    (s : String) :
    (h.dht.store s ≠ none → (h.step c op).dht.store s ≠ none)
    ∧ (h.dht.metastore s ≠ none → (h.step c op).dht.metastore s ≠ none)
    ∧ (h.dht.metastore s).getD [] <+: ((h.step c op).dht.metastore s).getD [] := by
  cases op with
  | put key value =>
    refine ⟨?_, id, List.prefix_refl _⟩
    intro hs
    show (h.dht.put key value).2.store s ≠ none
    rw [DHT.put_store]
    by_cases he : s = Stringer.String key
    · simp [GoMap.set, he]
    · rw [GoMap.set_other _ _ _ _ he]
      exact hs
  | putMeta key metaKey metaType value =>
    show (h.dht.store s ≠ none → (h.dht.putMeta key metaKey metaType value).2.store s ≠ none)
      ∧ (h.dht.metastore s ≠ none →
          (h.dht.putMeta key metaKey metaType value).2.metastore s ≠ none)
      ∧ (h.dht.metastore s).getD []
          <+: ((h.dht.putMeta key metaKey metaType value).2.metastore s).getD []
    rw [DHT.putMeta_store]
    cases hst : h.dht.store (Stringer.String key) with
    | none =>
      rw [DHT.putMeta_of_absent _ _ _ _ _ hst]
      exact ⟨id, id, List.prefix_refl _⟩
    | some b =>
      rw [DHT.putMeta_of_stored _ _ _ _ _ b hst]
      by_cases he : s = Stringer.String key
      · subst he
        simp [GoMap.set]
      · simp [GoMap.set, he]
  | «exists» key => exact ⟨id, id, List.prefix_refl _⟩
  | get key => exact ⟨id, id, List.prefix_refl _⟩
  | getMeta key metaType => exact ⟨id, id, List.prefix_refl _⟩
  | receive m =>
    have h1 : (h.step c (Op.receive m)).dht.store = h.dht.store := DHTReceiver_store c h m
    have h2 : (h.step c (Op.receive m)).dht.metastore = h.dht.metastore :=
      DHTReceiver_metastore c h m
    rw [h1, h2]
    exact ⟨id, id, List.prefix_refl _⟩

/-- C15: all writes funnel through `put` and `putMeta`.  The calls `exists`,
`get` and `getMeta` leave the node as it is, and `DHTReceiver`, for every
message, leaves the content store and the metadata store as they are: the node
after the dispatch is the node before it with, at most, another request
queue. -/
theorem only_put_and_putMeta_write [Stringer Hash] (c : MsgTypes) (h : Holochain Hash)
    (key : Hash) (metaType : String) (m : Message Hash) :
    h.step c (Op.exists key) = h
    ∧ h.step c (Op.get key) = h
    ∧ h.step c (Op.getMeta key metaType) = h
    ∧ (DHTReceiver c h m).h.dht.store = h.dht.store
    ∧ (DHTReceiver c h m).h.dht.metastore = h.dht.metastore
    ∧ (DHTReceiver c h m).h
        = { h with dht := { h.dht with Queue := (DHTReceiver c h m).h.dht.Queue } } := by
  refine ⟨rfl, rfl, rfl, DHTReceiver_store c h m, DHTReceiver_metastore c h m, ?_⟩
  unfold DHTReceiver
  split
  · split
    · split <;> rfl
    · rfl
  · split <;> rfl

end Invariants

/-! ## Order of the request queue -/

section QueueOrder

variable {Hash : Type}

theorem Queue.Put_cases (q : Queue Hash) (m : Message Hash) :
    q.Put m = (none, { q with items := q.items ++ [m] }) ∨ ∃ e, q.Put m = (some e, q) := by
  unfold Queue.Put
  split
  · exact Or.inr ⟨_, rfl⟩
  · split
    · exact Or.inr ⟨_, rfl⟩
    · exact Or.inl rfl

theorem Message.isPutHash_iff (c : MsgTypes) (m : Message Hash) :
    m.isPutHash c = true ↔ m.Typ = c.PUT_REQUEST ∧ ∃ k, m.Body = Body.hash k := by
  unfold Message.isPutHash
  cases m.Body <;> simp

theorem DHTReceiver_queue_cases (c : MsgTypes) (h : Holochain Hash) (m : Message Hash) :
    ((DHTReceiver c h m).response = some "queued" ∧ m.isPutHash c = true
        ∧ (DHTReceiver c h m).h.dht.Queue
            = { h.dht.Queue with items := h.dht.Queue.items ++ [m] })
    ∨ ((DHTReceiver c h m).response ≠ some "queued"
        ∧ (DHTReceiver c h m).h.dht.Queue = h.dht.Queue) := by
  by_cases hP : m.Typ = c.PUT_REQUEST
  · cases hb : m.Body with
    | hash k =>
      rcases Queue.Put_cases h.dht.Queue m with hq | ⟨e, hq⟩
      · rw [DHTReceiver_put_hash_ok c h m k _ hP hb hq]
        exact Or.inl ⟨rfl, (Message.isPutHash_iff c m).mpr ⟨hP, k, hb⟩, rfl⟩
      · rw [DHTReceiver_put_hash_err c h m k e _ hP hb hq]
        exact Or.inr ⟨by simp, rfl⟩
    | nil =>
      rw [DHTReceiver_put_other c h m hP (by simp [hb])]
      exact Or.inr ⟨by simp, rfl⟩
    | other t x =>
      rw [DHTReceiver_put_other c h m hP (by simp [hb])]
      exact Or.inr ⟨by simp, rfl⟩
  · by_cases hG : m.Typ = c.GET_REQUEST
    · rw [DHTReceiver_get c h m hG]
      exact Or.inr ⟨by simp, rfl⟩
    · rw [DHTReceiver_unknown c h m hP hG]
      exact Or.inr ⟨by simp, rfl⟩

theorem DHTReceiver_queued_of_open (c : MsgTypes) (h : Holochain Hash) (m : Message Hash)
    (hopen : h.dht.Queue.disposed = false) (hcap : h.dht.Queue.capacity = none) :
    ((DHTReceiver c h m).response = some "queued" ↔ m.isPutHash c = true)
    ∧ (DHTReceiver c h m).h.dht.Queue.disposed = false
    ∧ (DHTReceiver c h m).h.dht.Queue.capacity = none := by
  have hroom : h.dht.Queue.full = false := by simp [Queue.full, hcap]
  rcases DHTReceiver_queue_cases c h m with ⟨h1, h2, h3⟩ | ⟨h1, h3⟩
  · rw [h3]
    exact ⟨⟨fun _ => h2, fun _ => h1⟩, hopen, hcap⟩
  · rw [h3]
    refine ⟨⟨fun hq => absurd hq h1, fun hp => ?_⟩, hopen, hcap⟩
    obtain ⟨hT, k, hb⟩ := (Message.isPutHash_iff c m).mp hp
    rw [DHTReceiver_put_hash_ok c h m k _ hT hb (Queue.Put_accepts _ m hopen hroom)]

theorem receiveAll_items (c : MsgTypes) (msgs : List (Message Hash)) (h : Holochain Hash) :
    (receiveAll c h msgs).dht.Queue.items = h.dht.Queue.items ++ accepted c h msgs := by
  induction msgs generalizing h with
  | nil => simp [receiveAll, accepted]
  | cons m rest ih =>
    rw [receiveAll, accepted, ih]
    rcases DHTReceiver_queue_cases c h m with ⟨h1, _, h3⟩ | ⟨h1, h3⟩
    · rw [if_pos h1, h3]
      simp
    · rw [if_neg h1, h3]

theorem accepted_sublist (c : MsgTypes) (msgs : List (Message Hash)) (h : Holochain Hash) :
    (accepted c h msgs).Sublist (msgs.filter (Message.isPutHash c)) := by
  induction msgs generalizing h with
  | nil => simp [accepted]
  | cons m rest ih =>
    rw [accepted]
    rcases DHTReceiver_queue_cases c h m with ⟨h1, h2, _⟩ | ⟨h1, _⟩
    · rw [if_pos h1, List.filter_cons_of_pos h2]
      exact (ih _).cons₂ m
    · rw [if_neg h1]
      by_cases hp : m.isPutHash c = true
      · rw [List.filter_cons_of_pos hp]
        exact (ih _).cons m
      · rw [List.filter_cons_of_neg hp]
        exact ih _

theorem accepted_of_open (c : MsgTypes) (msgs : List (Message Hash)) (h : Holochain Hash)
    (hopen : h.dht.Queue.disposed = false) (hcap : h.dht.Queue.capacity = none) :
    accepted c h msgs = msgs.filter (Message.isPutHash c) := by
  induction msgs generalizing h with
  | nil => simp [accepted]
  | cons m rest ih =>
    obtain ⟨hq, ho, hc⟩ := DHTReceiver_queued_of_open c h m hopen hcap
    rw [accepted, ih _ ho hc]
    by_cases hp : m.isPutHash c = true
    · rw [if_pos (hq.mpr hp), List.filter_cons_of_pos hp]
    · rw [if_neg (fun e => hp (hq.mp e)), List.filter_cons_of_neg hp]

/-- C16: the order of the request queue is the order of arrival.  After
`DHTReceiver` has dispatched a finite sequence of messages one after another,
the queue holds what it held before followed by exactly the messages that were
acknowledged with "queued", in the order of their dispatch; these are among
the PUT_REQUEST messages with a Hash body, in the same order, and are all of
them when the queue is open and unbounded.  Messages that are not acknowledged
add nothing. -/
theorem queue_is_arrival_order (c : MsgTypes) (h : Holochain Hash)
    (msgs : List (Message Hash)) :
    (receiveAll c h msgs).dht.Queue.items = h.dht.Queue.items ++ accepted c h msgs
    ∧ (accepted c h msgs).Sublist (msgs.filter (Message.isPutHash c))
    ∧ (h.dht.Queue.disposed = false → h.dht.Queue.capacity = none →
        (receiveAll c h msgs).dht.Queue.items
          = h.dht.Queue.items ++ msgs.filter (Message.isPutHash c)) := by
  refine ⟨receiveAll_items c msgs h, accepted_sublist c msgs h, fun hopen hcap => ?_⟩
  rw [receiveAll_items, accepted_of_open c msgs h hopen hcap]

/-- Witness of C16: on a new node, of a PUT_REQUEST for "A", a GET_REQUEST, a
PUT_REQUEST without a hash, a message of type 9 and a PUT_REQUEST for "B", the
queue holds the first and the last, in that order. -/
theorem queue_is_arrival_order_witness :
    (receiveAll demoTypes { dht := (NewDHT : DHT TextHash) }
        [{ Typ := 2, Body := Body.hash ⟨"A"⟩ }, { Typ := 3, Body := Body.hash ⟨"A"⟩ },
         { Typ := 2, Body := Body.nil }, { Typ := 9, Body := Body.hash ⟨"C"⟩ },
         { Typ := 2, Body := Body.hash ⟨"B"⟩ }]).dht.Queue.items
      = [{ Typ := 2, Body := Body.hash ⟨"A"⟩ }, { Typ := 2, Body := Body.hash ⟨"B"⟩ }] :=
  ((queue_is_arrival_order demoTypes { dht := (NewDHT : DHT TextHash) }
      [{ Typ := 2, Body := Body.hash ⟨"A"⟩ }, { Typ := 3, Body := Body.hash ⟨"A"⟩ },
       { Typ := 2, Body := Body.nil }, { Typ := 9, Body := Body.hash ⟨"C"⟩ },
       { Typ := 2, Body := Body.hash ⟨"B"⟩ }]).2.2 rfl rfl).trans (by decide)

end QueueOrder

/-! ## Error texts and locality of writes -/

section Locality

variable {Hash : Type}

theorem DHT.exists_congr [Stringer Hash] (d1 d2 : DHT Hash) (key : Hash)
    (hs : d1.store (Stringer.String key) = d2.store (Stringer.String key)) :
    d1.exists key = d2.exists key := by
  unfold DHT.exists
  rw [hs]

theorem DHT.get_congr [Stringer Hash] (d1 d2 : DHT Hash) (key : Hash)
    (hs : d1.store (Stringer.String key) = d2.store (Stringer.String key)) :
    d1.get key = d2.get key := by
  unfold DHT.get DHT.exists
  rw [hs]

theorem DHT.getMeta_congr [Stringer Hash] (d1 d2 : DHT Hash) (key : Hash) (t : String)
    (hs : d1.store (Stringer.String key) = d2.store (Stringer.String key))
    (hm : d1.metastore (Stringer.String key) = d2.metastore (Stringer.String key)) :
    d1.getMeta key t = d2.getMeta key t := by
  unfold DHT.getMeta DHT.exists
  rw [hs]
  simp only [hm]

theorem DHT.putMeta_metastore_other [Stringer Hash] (dht : DHT Hash) (key metaKey : Hash)
    (t : String) (v : Bytes) (s : String) (hne : s ≠ Stringer.String key) :
    (dht.putMeta key metaKey t v).2.metastore s = dht.metastore s := by
  cases hst : dht.store (Stringer.String key) with
  | none => rw [DHT.putMeta_of_absent _ _ _ _ _ hst]
  | some b =>
    rw [DHT.putMeta_of_stored _ _ _ _ _ b hst]
    exact GoMap.set_other _ _ _ _ hne

/-- C17: failures identify the offending key or type.  When the key is absent
from the content store, `exists`, `get`, `putMeta` and `getMeta` all fail with
the error text "No key: " followed by the string encoding of the key; when the
key is stored and `getMeta` fails, the error text is "No values for " followed
by the requested type tag. -/
theorem errors_name_key_or_type [Stringer Hash] (dht : DHT Hash) (key metaKey : Hash)
    (metaType : String) (value : Bytes) :
    (dht.store (Stringer.String key) = none →
      dht.exists key = some ("No key: " ++ Stringer.String key)
      ∧ (dht.get key).2 = some ("No key: " ++ Stringer.String key)
      ∧ (dht.putMeta key metaKey metaType value).1
          = some ("No key: " ++ Stringer.String key)
      ∧ (dht.getMeta key metaType).2 = some ("No key: " ++ Stringer.String key))
    ∧ (dht.store (Stringer.String key) ≠ none → (dht.getMeta key metaType).2 ≠ none →
        (dht.getMeta key metaType).2 = some ("No values for " ++ metaType)) := by
  constructor
  · intro hs
    rw [DHT.exists_of_absent _ _ hs, DHT.get_of_absent _ _ hs,
      DHT.putMeta_of_absent _ _ _ _ _ hs, DHT.getMeta_of_absent _ _ _ hs]
    exact ⟨rfl, rfl, rfl, rfl⟩
  · intro hs
    obtain ⟨b, hb⟩ := Option.ne_none_iff_exists'.mp hs
    rw [DHT.getMeta_of_stored _ _ _ b hb]
    simp only
    split
    · intro _; rfl
    · intro hn; exact absurd rfl hn

/-- C20: writes are local to their key.  When distinct hashes have distinct
string encodings and `k1` differs from `k`: `put k v` leaves `exists k1`,
`get k1` and `getMeta k1 T` as they were, leaves the whole metadata store as it
was, and, when `k` was already stored, leaves `getMeta k T` as it was; and
`putMeta k mk T0 val` leaves `get j` as it was for every key `j`, and
`getMeta k1 T` as it was. -/
theorem writes_are_local [Stringer Hash] (dht : DHT Hash) (k k1 mk : Hash) (v val : Bytes)
    (T T0 : String)
    (hinj : Function.Injective (Stringer.String : Hash → String)) (hne : k1 ≠ k) :
    (dht.put k v).2.exists k1 = dht.exists k1
    ∧ (dht.put k v).2.get k1 = dht.get k1
    ∧ (dht.put k v).2.getMeta k1 T = dht.getMeta k1 T
    ∧ (dht.put k v).2.metastore = dht.metastore
    ∧ (dht.store (Stringer.String k) ≠ none → (dht.put k v).2.getMeta k T = dht.getMeta k T)
    ∧ (∀ j, (dht.putMeta k mk T0 val).2.get j = dht.get j)
    ∧ (dht.putMeta k mk T0 val).2.getMeta k1 T = dht.getMeta k1 T := by
  have hs : Stringer.String k1 ≠ Stringer.String k := fun e => hne (hinj e)
  have hput : (dht.put k v).2.store (Stringer.String k1) = dht.store (Stringer.String k1) := by
    rw [DHT.put_store]; exact GoMap.set_other _ _ _ _ hs
  refine ⟨DHT.exists_congr _ _ _ hput, DHT.get_congr _ _ _ hput,
    DHT.getMeta_congr _ _ _ _ hput rfl, rfl, ?_, ?_, ?_⟩
  · intro hk
    obtain ⟨b, hb⟩ := Option.ne_none_iff_exists'.mp hk
    have hk2 : (dht.put k v).2.store (Stringer.String k) = some v := by
      rw [DHT.put_store]; exact GoMap.set_same _ _ _
    rw [DHT.getMeta_of_stored _ _ _ v hk2, DHT.getMeta_of_stored _ _ _ b hb, DHT.put_metastore]
  · intro j
    exact DHT.get_congr _ _ _ (by rw [DHT.putMeta_store])
  · exact DHT.getMeta_congr _ _ _ _ (by rw [DHT.putMeta_store])
      (DHT.putMeta_metastore_other _ _ _ _ _ _ hs)

/-- Witness of C20: with keys that are their own encoding, overwriting "A"
leaves `get "B"` as it was. -/
theorem writes_are_local_witness :
    ((((NewDHT : DHT TextHash).put ⟨"A"⟩ [1]).2.put ⟨"B"⟩ [2]).2.put ⟨"A"⟩ [3]).2.get ⟨"B"⟩
      = (((NewDHT : DHT TextHash).put ⟨"A"⟩ [1]).2.put ⟨"B"⟩ [2]).2.get ⟨"B"⟩ :=
  (writes_are_local (((NewDHT : DHT TextHash).put ⟨"A"⟩ [1]).2.put ⟨"B"⟩ [2]).2
    ⟨"A"⟩ ⟨"B"⟩ ⟨"C"⟩ [3] [4] "link" "tag"
    (fun a b e => by cases a; cases b; simpa [Stringer.String] using e)
    (by decide)).2.1

end Locality

end HoloDHT
